import Mathlib

/-!
Shallow embedding of the real-time gateway core of the ChatApp repository
(`index.js`). The WebSocket/Redis side effects are modelled as explicit
state passing and effect lists:

* Redis sets (`sadd` / `srem` / `smembers`) become a `Store` function from
  key strings to `Finset String`.
* `pub.publish(channel, json)` calls become entries of a `published` list
  of channel/event pairs.
* `ws.send(json)` calls become entries of a `sent` list.
* `Message.create` (Mongo persistence) is modelled by a `persistOk` flag:
  when `false` the awaited promise rejects, which in the source jumps to
  the surrounding `catch` block (modelled by the `logged` flag).
* `Date.now()` and `uuidv4()` are passed in as explicit `now` / `uuid`
  arguments.

Wire events (JSON objects) are structured values, so "forwarding verbatim"
is forwarding the identical value.
-/

namespace ChatApp

/-- `WebSocket.OPEN` ready-state constant checked by the fan-out loop. -/
def WS_OPEN : Nat := 1

/-- A local WebSocket connection handle: an identity for the handle plus its
`readyState` field. -/
structure Conn where
  cid : Nat
  readyState : Nat
  deriving DecidableEq, Repr

/-- Per-connection session metadata stored in the `clients` map
(`clients.set(ws, { id, room, username })`). -/
structure Meta where
  id : String
  room : String
  username : String
  deriving DecidableEq, Repr

/-- The chat message object built in the `message` branch of the inbound
handler (`{ id, type: "message", messageType, room, user, text, ts }`). -/
structure ChatMessage where
  id : String
  messageType : String
  room : String
  user : String
  text : String
  ts : Nat
  deriving DecidableEq, Repr

/-- Events travelling over the Redis room channel.  Every bus event carries
its room so the fan-out handler can filter. -/
inductive BusEvent
  | presence (room : String) (users : Finset String)
  | signal (origType room fromUser payload : String)
  | chat (m : ChatMessage)
  deriving DecidableEq

/-- The `room` field of a bus event (`msg.room` in the fan-out handler). -/
def BusEvent.room : BusEvent → String
  | .presence room _ => room
  | .signal _ room _ _ => room
  | .chat m => m.room

/-- Events sent directly to one client over its WebSocket. -/
inductive ClientOut
  | error (message : String)
  | welcome (id room : String) (users : Finset String) (ts : Nat)
  | pong (ts : Nat)
  deriving DecidableEq

/-- A parsed inbound client frame: its `type` tag, the optional
`messageType` and `text` fields used by the `message` branch, and an opaque
`payload` standing for the remaining fields (the WebRTC signalling body,
spread through by `{...parsed}`). -/
structure ClientEvent where
  type : String
  messageType : Option String
  text : Option String
  payload : String
  deriving DecidableEq, Repr

/-- JavaScript `v || dflt` on an optional string field: both an absent field
and an empty string are falsy and select the default. -/
def jsOr (v : Option String) (dflt : String) : String :=
  match v with
  | none => dflt
  | some s => if s = "" then dflt else s

/-- `room:${room}:channel` -/
def redisRoomChannel (room : String) : String :=
  "room:" ++ room ++ ":channel"

/-- `room:${room}:users` -/
def redisRoomUsersKey (room : String) : String :=
  "room:" ++ room ++ ":users"

/-- Observable effects of one run of the inbound `ws.on("message")`
handler: bus publishes, sends on this connection, successful history
appends, and whether the surrounding `catch` logged an error.  The handler
contains no `clients.set` / `clients.delete` and no `sadd` / `srem`, so it
has no registry or membership effects to record. -/
structure HandlerResult where
  published : List (String × BusEvent)
  sent : List ClientOut
  persisted : List ChatMessage
  logged : Bool
  deriving DecidableEq

/-- The inbound `ws.on("message")` handler (index.js lines 199–247) for a
joined session in `room` as `username`.  `data = none` models a frame that
`JSON.parse` rejects.  The three `webrtc-*` types publish a stamped signal
and return; a `message` frame awaits `Message.create` before `pub.publish`,
so a rejected create (`persistOk = false`) jumps to the `catch` and skips
the publish; a `ping` gets one pong; anything else falls through.  The
source checks `message` and `ping` as two sequential `if`s, but one `type`
string matches at most one of them, so the chain below is equivalent. -/
def handleMessage (room username : String) (data : Option ClientEvent)
    (uuid : String) (now : Nat) (persistOk : Bool) : HandlerResult :=
  match data with
  | none => ⟨[], [], [], true⟩
  | some parsed =>
    if parsed.type = "webrtc-offer" ∨ parsed.type = "webrtc-answer" ∨
        parsed.type = "webrtc-ice" then
      ⟨[(redisRoomChannel room,
          BusEvent.signal parsed.type room username parsed.payload)],
        [], [], false⟩
    else if parsed.type = "message" then
      let chatMessage : ChatMessage :=
        ⟨uuid, jsOr parsed.messageType "text", room, username,
          jsOr parsed.text "", now⟩
      if persistOk then
        ⟨[(redisRoomChannel room, BusEvent.chat chatMessage)], [],
          [chatMessage], false⟩
      else
        ⟨[], [], [], true⟩
    else if parsed.type = "ping" then
      ⟨[], [ClientOut.pong now], [], false⟩
    else
      ⟨[], [], [], false⟩

/-- One inbound frame together with the ambient values consumed while
handling it (fresh uuid, current time, persistence outcome). -/
structure InboundFrame where
  data : Option ClientEvent
  uuid : String
  now : Nat
  persistOk : Bool

/-- Per-connection inbound frames are processed in receipt order, each by
one run of the handler; the handler keeps no per-connection state between
frames. -/
def handleFrames (room username : String) : List InboundFrame → List HandlerResult
  | [] => []
  | f :: rest =>
      handleMessage room username f.data f.uuid f.now f.persistOk ::
        handleFrames room username rest

/-- Effects of one run of the `sub.on("message")` fan-out handler: sends to
local connections, plus the (empty) list of publishes — the handler
contains no `pub.publish` call. -/
structure BusDeliverResult where
  sent : List (Conn × BusEvent)
  published : List (String × BusEvent)
  deriving DecidableEq

/-- The Redis `sub.on("message")` fan-out handler (index.js lines 144–153):
extract `msg.room`, and for every `(ws, meta)` entry of the `clients` map
with `meta.room === room && ws.readyState === WebSocket.OPEN`, send the
event on that connection.  Nothing is re-published. -/
def onBusMessage (clients : List (Conn × Meta)) (message : BusEvent) :
    BusDeliverResult :=
  let msg := message
  let room := msg.room
  ⟨clients.filterMap (fun p =>
      if p.2.room = room ∧ p.1.readyState = WS_OPEN then some (p.1, msg)
      else none),
    []⟩

/-- The shared Redis keyspace of sets, as used through `sadd` / `srem` /
`smembers`. -/
def Store := String → Finset String

/-- `cli.sadd(key, member)` on the set store. -/
def sadd (store : Store) (key member : String) : Store :=
  fun k => if k = key then insert member (store k) else store k

/-- `cli.srem(key, member)` on the set store. -/
def srem (store : Store) (key member : String) : Store :=
  fun k => if k = key then (store k).erase member else store k

/-- `cli.smembers(key)` on the set store. -/
def smembers (store : Store) (key : String) : Finset String :=
  store key

/-- `addUserToRoom(room, username)` (index.js lines 113–126): `sadd` the
identity into the room's users set, read the resulting set back, and
publish a full-snapshot presence event on the room channel.  Returns the
new store and the published channel/event pair. -/
def addUserToRoom (store : Store) (room username : String) :
    Store × (String × BusEvent) :=
  let store' := sadd store (redisRoomUsersKey room) username
  let users := smembers store' (redisRoomUsersKey room)
  (store', (redisRoomChannel room, BusEvent.presence room users))

/-- `removeUserFromRoom(room, username)` (index.js lines 128–141): `srem`
the identity, read the resulting set back, and publish the presence
snapshot. -/
def removeUserFromRoom (store : Store) (room username : String) :
    Store × (String × BusEvent) :=
  let store' := srem store (redisRoomUsersKey room) username
  let users := smembers store' (redisRoomUsersKey room)
  (store', (redisRoomChannel room, BusEvent.presence room users))

/-- How the token query parameter fares at the handshake: absent, present
but failing `jwt.verify`, or verifying to an identity. -/
inductive AuthInput
  | noToken
  | badToken
  | goodToken (username : String)

/-- Observable outcome of the `wss.on("connection")` handler for one
connection: what was sent, whether `ws.close()` was called, whether the
connection is registered in the `clients` map when the handler ends,
whether the message/close handlers got installed, and whether the outer
`catch` logged an error. -/
structure ConnResult where
  sent : List ClientOut
  closed : Bool
  registered : Bool
  handlersInstalled : Bool
  logged : Bool
  deriving DecidableEq

/-- The `wss.on("connection")` handler (index.js lines 156–260).  A missing
or invalid token sends an `error` event and closes.  With a valid token the
connection is first put into the `clients` map, then `ensureSubscribed` and
`addUserToRoom` are awaited; `storeOk = false` models the broker-backed
join rejecting, which throws to the outer `catch` — the error is logged and
the handler ends with the connection still registered, no welcome sent, no
`ws.close()`, and no message/close handlers installed.  On success
(`storeOk = true`) the welcome carries the session id and the membership
snapshot `currentUsers` read back after the join. -/
def handleConnection (auth : AuthInput) (room sessionId : String)
    (storeOk : Bool) (currentUsers : Finset String) (now : Nat) : ConnResult :=
  match auth with
  | .noToken => ⟨[ClientOut.error "Token missing"], true, false, false, false⟩
  | .badToken => ⟨[ClientOut.error "Invalid token"], true, false, false, false⟩
  | .goodToken _ =>
      if storeOk then
        ⟨[ClientOut.welcome sessionId room currentUsers now], false, true,
          true, false⟩
      else
        ⟨[], false, true, false, true⟩

/-- Joint state of one gateway process and the shared presence store, as
far as membership is concerned: the local `clients` map (connection handle
identity paired with its session metadata) and the Redis set keyspace. -/
structure GwState where
  clients : List (Nat × Meta)
  store : Store

/-- Membership-relevant operations on a gateway: a connection completing
its handshake (`clients.set` then `addUserToRoom`), and a connection's
`ws.on("close")` handler firing (`clients.delete` then
`removeUserFromRoom`, using the `room` / `username` captured in the
closure). -/
inductive GwOp
  | connect (c : Nat) (sid room username : String)
  | close (c : Nat)

/-- One membership step.  `connect` registers the session and `sadd`s the
identity; `close` looks the connection up, removes it from the map, and
`srem`s the identity recorded in its metadata (a close of an unknown handle
does nothing — each real close fires for a registered connection). -/
def gwStep (s : GwState) : GwOp → GwState
  | .connect c sid room username =>
      ⟨(c, ⟨sid, room, username⟩) :: s.clients,
        (addUserToRoom s.store room username).1⟩
  | .close c =>
      match s.clients.find? (fun p => p.1 == c) with
      | some q =>
          ⟨s.clients.filter (fun p => p.1 != c),
            (removeUserFromRoom s.store q.2.room q.2.username).1⟩
      | none => s

/-- Run a sequence of membership operations. -/
def gwRun (s : GwState) : List GwOp → GwState
  | [] => s
  | op :: ops => gwRun (gwStep s op) ops

/-- A fresh gateway process against an empty store. -/
def initState : GwState := ⟨[], fun _ => ∅⟩

/-- The identities having at least one currently-open session in `room` on
this gateway. -/
def openIdents (clients : List (Nat × Meta)) (room : String) : Finset String :=
  ((clients.filter (fun p => p.2.room == room)).map
      (fun p => p.2.username)).toFinset

/-- Traces where every `connect` uses a fresh connection handle and no
identity ever holds two concurrent sessions in the same room. -/
def wfOps : GwState → List GwOp → Bool
  | _, [] => true
  | s, op :: ops =>
      (match op with
        | GwOp.connect c _ room username =>
            s.clients.all (fun p =>
              p.1 != c && !(p.2.room == room && p.2.username == username))
        | GwOp.close _ => true) && wfOps (gwStep s op) ops

/-- State of the process-local subscription bookkeeping together with the
broker side: the `subscribedRooms` guard set of channel names, and how many
raw `sub.subscribe` calls have been issued per channel (each raw
subscription would deliver every event on that channel once more to this
process's `sub.on("message")` handler). -/
structure SubState where
  subscribedRooms : Finset String
  subCount : String → Nat

/-- A raw `sub.subscribe(channel)` call against the broker. -/
def rawSubscribe (st : SubState) (channel : String) : SubState :=
  ⟨st.subscribedRooms,
    fun c => if c = channel then st.subCount c + 1 else st.subCount c⟩

/-- `ensureSubscribed(room)` (index.js lines 105–111): subscribe to the
room channel only if it is not already in the `subscribedRooms` guard set,
then record it there. -/
def ensureSubscribed (st : SubState) (room : String) : SubState :=
  let channel := redisRoomChannel room
  if channel ∈ st.subscribedRooms then st
  else
    let st' := rawSubscribe st channel
    ⟨insert channel st'.subscribedRooms, st'.subCount⟩

/-- Process start: nothing subscribed. -/
def initSub : SubState := ⟨∅, fun _ => 0⟩

/-- Fold `ensureSubscribed` over the rooms of successive joins. -/
def ensureAll (st : SubState) : List String → SubState
  | [] => st
  | r :: rs => ensureAll (ensureSubscribed st r) rs

/-- Number of copies of a bus event `msg` that reach connection `c`: the
fan-out handler fires once per raw subscription of the event's channel, and
each firing sends to `c` as often as `c` matches in the `clients` map. -/
def deliveriesTo (st : SubState) (clients : List (Conn × Meta)) (c : Conn)
    (msg : BusEvent) : Nat :=
  st.subCount (redisRoomChannel msg.room) *
    ((onBusMessage clients msg).sent.filter
        (fun p => p.1.cid == c.cid)).length

/-! ## Theorems -/

/-- C1, counterexample: with a well-formed `message` frame, a rejecting
history append (`persistOk = false`) leaves `published` empty — the claim
says the chat message is still published — while the same frame with a
succeeding append does publish, so persistence was the only blocker. -/
theorem c1_counterexample :
    (handleMessage "dev" "alice" (some ⟨"message", some "text", some "hi", ""⟩)
        "m1" 42 false).published = [] ∧
    (handleMessage "dev" "alice" (some ⟨"message", some "text", some "hi", ""⟩)
        "m1" 42 true).published ≠ [] := by
  exact ⟨rfl, by decide⟩

/-- C1, amended: when the history append rejects, the `message` event is
not published at all — the rejection propagates to the handler's `catch`,
which only logs; nothing is sent, nothing persisted, and the session
continues (the handler returns normally). -/
theorem c1_persistence_failure_blocks_publish (room username uuid : String)
    (now : Nat) (parsed : ClientEvent) (h : parsed.type = "message") :
    handleMessage room username (some parsed) uuid now false =
      ⟨[], [], [], true⟩ := by
  simp [handleMessage, h]

/-- C1, witness for the amended theorem at a concrete frame. -/
theorem c1_witness :
    (⟨"message", some "text", some "hi", ""⟩ : ClientEvent).type = "message" ∧
    handleMessage "dev" "alice" (some ⟨"message", some "text", some "hi", ""⟩)
        "m1" 42 false = ⟨[], [], [], true⟩ :=
  ⟨rfl, c1_persistence_failure_blocks_publish "dev" "alice" "m1" 42 _ rfl⟩

/-- C2, counterexample: a well-formed `message` frame with no `messageType`
field is published (with the type defaulted), not dropped as the claim
states. -/
theorem c2_counterexample :
    (handleMessage "dev" "alice" (some ⟨"message", none, some "hi", ""⟩)
        "m1" 42 true).published ≠ [] := by
  decide

/-- C2, amended: an unparseable frame is dropped — nothing published,
nothing sent, nothing persisted, only a log — and handling of subsequent
frames on the connection is unaffected; a `message` frame missing
`messageType` is not dropped: the type defaults to `"text"` and the message
is persisted and published normally. -/
theorem c2_malformed_dropped_but_missing_messageType_defaulted
    (room username uuid : String) (now : Nat) (pOk : Bool)
    (rest : List InboundFrame) (parsed : ClientEvent)
    (h1 : parsed.type = "message") (h2 : parsed.messageType = none) :
    handleMessage room username none uuid now pOk = ⟨[], [], [], true⟩ ∧
    handleFrames room username (⟨none, uuid, now, pOk⟩ :: rest) =
      ⟨[], [], [], true⟩ :: handleFrames room username rest ∧
    handleMessage room username (some parsed) uuid now true =
      ⟨[(redisRoomChannel room, BusEvent.chat
          ⟨uuid, "text", room, username, jsOr parsed.text "", now⟩)], [],
        [⟨uuid, "text", room, username, jsOr parsed.text "", now⟩],
        false⟩ := by
  refine ⟨rfl, rfl, ?_⟩
  simp [handleMessage, h1, h2, jsOr]

/-- C2, witness for the amended theorem at a concrete frame. -/
theorem c2_witness :
    handleMessage "dev" "alice" none "m1" 42 true = ⟨[], [], [], true⟩ ∧
    handleMessage "dev" "alice" (some ⟨"message", none, some "hi", ""⟩)
        "m1" 42 true =
      ⟨[(redisRoomChannel "dev", BusEvent.chat
          ⟨"m1", "text", "dev", "alice", "hi", 42⟩)], [],
        [⟨"m1", "text", "dev", "alice", "hi", 42⟩], false⟩ := by
  have h := c2_malformed_dropped_but_missing_messageType_defaulted
    "dev" "alice" "m1" 42 true [] ⟨"message", none, some "hi", ""⟩ rfl rfl
  exact ⟨h.1, h.2.2⟩

/-- C4, counterexample: with a valid token and the presence-store join
failing, the connection handler neither closes the socket nor sends any
(error) event, and the connection stays registered — the claim says the
session is closed after an error event. -/
theorem c4_counterexample :
    (handleConnection (.goodToken "alice") "dev" "s1" false ∅ 0).closed
        = false ∧
    (handleConnection (.goodToken "alice") "dev" "s1" false ∅ 0).sent = [] ∧
    (handleConnection (.goodToken "alice") "dev" "s1" false ∅ 0).registered
        = true :=
  ⟨rfl, rfl, rfl⟩

/-- C4, amended: when the broker-backed join fails during connection setup
the handshake stops early — no welcome, no message/close handlers — but the
error is only logged: no error event is sent, `ws.close()` is not called,
and the session remains registered in the `clients` map. -/
theorem c4_join_failure_logged_only (username room sid : String)
    (currentUsers : Finset String) (now : Nat) :
    handleConnection (.goodToken username) room sid false currentUsers now =
      ⟨[], false, true, false, true⟩ :=
  rfl

/-- C9: a `ping` frame from a joined session yields exactly one pong
carrying the current server time on that same connection, publishes nothing
to the bus, and persists nothing. -/
theorem c9_ping_pong (room username uuid : String) (now : Nat) (pOk : Bool)
    (parsed : ClientEvent) (h : parsed.type = "ping") :
    handleMessage room username (some parsed) uuid now pOk =
      ⟨[], [ClientOut.pong now], [], false⟩ := by
  simp [handleMessage, h]

/-- C9, witness at a concrete ping frame. -/
theorem c9_witness :
    handleMessage "dev" "alice" (some ⟨"ping", none, none, ""⟩) "m1" 42 true =
      ⟨[], [ClientOut.pong 42], [], false⟩ :=
  c9_ping_pong "dev" "alice" "m1" 42 true _ rfl

/-- C10: a well-formed frame whose `type` is none of the recognized kinds
falls through every branch of the handler: nothing sent, nothing published,
nothing persisted, not even a log, and (the handler touching neither the
`clients` map nor the users sets) registration and membership unchanged. -/
theorem c10_unrecognized_ignored (room username uuid : String) (now : Nat)
    (pOk : Bool) (parsed : ClientEvent)
    (h : parsed.type ∉ ["webrtc-offer", "webrtc-answer", "webrtc-ice",
        "message", "ping"]) :
    handleMessage room username (some parsed) uuid now pOk =
      ⟨[], [], [], false⟩ := by
  simp only [List.mem_cons, List.not_mem_nil, or_false, not_or] at h
  obtain ⟨h1, h2, h3, h4, h5⟩ := h
  simp [handleMessage, h1, h2, h3, h4, h5]

/-- C10, witness at a concrete unrecognized frame. -/
theorem c10_witness :
    handleMessage "dev" "alice" (some ⟨"typing", none, none, ""⟩) "m1" 42
        true = ⟨[], [], [], false⟩ :=
  c10_unrecognized_ignored "dev" "alice" "m1" 42 true _ (by decide)

/-- C5: the fan-out handler forwards a bus event verbatim (the identical
value) to every registered connection whose session room equals the event's
room and whose transport is open; everything it sends is that exact event,
sent only to such connections (so never to a connection registered in a
different room); and it publishes nothing back to the bus. -/
theorem c5_fanout_verbatim_room_filtered_no_republish
    (clients : List (Conn × Meta)) (msg : BusEvent) :
    (∀ p ∈ clients, p.2.room = msg.room → p.1.readyState = WS_OPEN →
        (p.1, msg) ∈ (onBusMessage clients msg).sent) ∧
    (∀ q ∈ (onBusMessage clients msg).sent,
        q.2 = msg ∧ ∃ m, (q.1, m) ∈ clients ∧ m.room = msg.room ∧
          q.1.readyState = WS_OPEN) ∧
    (onBusMessage clients msg).published = [] := by
  refine ⟨?_, ?_, rfl⟩
  · intro p hp h1 h2
    simp only [onBusMessage, List.mem_filterMap]
    exact ⟨p, hp, by simp [h1, h2]⟩
  · intro q hq
    simp only [onBusMessage, List.mem_filterMap] at hq
    obtain ⟨p, hp, hcond⟩ := hq
    by_cases hc : p.2.room = msg.room ∧ p.1.readyState = WS_OPEN
    · rw [if_pos hc, Option.some_inj] at hcond
      subst hcond
      exact ⟨rfl, p.2, hp, hc.1, hc.2⟩
    · rw [if_neg hc] at hcond
      exact absurd hcond (Option.noConfusion)

/-- C5, witness: a two-connection registry, one in the event's room and
open, one in another room; the matching connection receives the event. -/
theorem c5_witness :
    (⟨1, WS_OPEN⟩, BusEvent.chat ⟨"m1", "text", "dev", "alice", "hi", 42⟩) ∈
      (onBusMessage
          [(⟨1, WS_OPEN⟩, ⟨"s1", "dev", "bob"⟩),
            (⟨2, WS_OPEN⟩, ⟨"s2", "ops", "eve"⟩)]
          (BusEvent.chat ⟨"m1", "text", "dev", "alice", "hi", 42⟩)).sent :=
  (c5_fanout_verbatim_room_filtered_no_republish _ _).1
    (⟨1, WS_OPEN⟩, ⟨"s1", "dev", "bob"⟩) (by simp) rfl rfl

/-- C6, counterexample: starting from a store where `alice` is already a
member of room `dev`, a join followed by an immediate leave by `alice`
empties the set instead of restoring `{alice}`. -/
theorem c6_counterexample :
    (removeUserFromRoom
        (addUserToRoom
            (fun k => if k = redisRoomUsersKey "dev" then {"alice"} else ∅)
            "dev" "alice").1
        "dev" "alice").1 (redisRoomUsersKey "dev") ≠
      (fun k => if k = redisRoomUsersKey "dev" then
          ({"alice"} : Finset String) else ∅) (redisRoomUsersKey "dev") := by
  decide

/-- C6, amended: join then immediate leave by the same identity yields the
pre-join membership set with that identity erased; it restores the pre-join
set exactly precisely when the identity was not already a member before the
join. -/
theorem c6_join_leave_roundtrip (store : Store) (room u : String) :
    (removeUserFromRoom (addUserToRoom store room u).1 room u).1
        (redisRoomUsersKey room) =
      (store (redisRoomUsersKey room)).erase u ∧
    (u ∉ store (redisRoomUsersKey room) →
      (removeUserFromRoom (addUserToRoom store room u).1 room u).1 = store) := by
  constructor
  · simp [addUserToRoom, removeUserFromRoom, sadd, srem,
      Finset.erase_insert_eq_erase]
  · intro h
    funext k
    by_cases hk : k = redisRoomUsersKey room
    · subst hk
      simp [addUserToRoom, removeUserFromRoom, sadd, srem,
        Finset.erase_insert_eq_erase, Finset.erase_eq_of_not_mem h]
    · simp [addUserToRoom, removeUserFromRoom, sadd, srem, hk]

/-- C6, witness: from an empty store a fresh join then leave restores the
store exactly. -/
theorem c6_witness :
    (removeUserFromRoom
        (addUserToRoom (fun _ => (∅ : Finset String)) "dev" "alice").1
        "dev" "alice").1 = (fun _ => (∅ : Finset String)) :=
  (c6_join_leave_roundtrip (fun _ => ∅) "dev" "alice").2
    (Finset.not_mem_empty _)

/-- C7: presence join and leave are idempotent — joining twice yields the
same store as joining once; joining an existing member leaves the store
unchanged; leaving a non-member leaves the store unchanged.  (Both
operations are total in the model: no error value exists.) -/
theorem c7_join_leave_idempotent (store : Store) (room u : String) :
    (addUserToRoom (addUserToRoom store room u).1 room u).1 =
      (addUserToRoom store room u).1 ∧
    (u ∈ store (redisRoomUsersKey room) →
      (addUserToRoom store room u).1 = store) ∧
    (u ∉ store (redisRoomUsersKey room) →
      (removeUserFromRoom store room u).1 = store) := by
  refine ⟨?_, ?_, ?_⟩
  · funext k
    by_cases hk : k = redisRoomUsersKey room
    · subst hk; simp [addUserToRoom, sadd]
    · simp [addUserToRoom, sadd, hk]
  · intro h
    funext k
    by_cases hk : k = redisRoomUsersKey room
    · subst hk; simp [addUserToRoom, sadd, Finset.insert_eq_self.mpr h]
    · simp [addUserToRoom, sadd, hk]
  · intro h
    funext k
    by_cases hk : k = redisRoomUsersKey room
    · subst hk; simp [removeUserFromRoom, srem, Finset.erase_eq_of_not_mem h]
    · simp [removeUserFromRoom, srem, hk]

/-- C7, witness: joining a room whose set already holds the identity, and
leaving a room whose set does not, both leave the store unchanged. -/
theorem c7_witness :
    (addUserToRoom (fun _ => ({"alice"} : Finset String)) "dev" "alice").1 =
      (fun _ => ({"alice"} : Finset String)) ∧
    (removeUserFromRoom (fun _ => (∅ : Finset String)) "dev" "alice").1 =
      (fun _ => (∅ : Finset String)) :=
  ⟨(c7_join_leave_idempotent (fun _ => {"alice"}) "dev" "alice").2.1
      (Finset.mem_singleton_self _),
    (c7_join_leave_idempotent (fun _ => ∅) "dev" "alice").2.2
      (Finset.not_mem_empty _)⟩

/-- The subscription bookkeeping invariant: a channel has exactly one raw
broker subscription when it is in the guard set and none otherwise. -/
def subInv (st : SubState) : Prop :=
  ∀ c, st.subCount c = if c ∈ st.subscribedRooms then 1 else 0

lemma subInv_initSub : subInv initSub := by
  intro c
  simp [initSub]

lemma subInv_ensureSubscribed {st : SubState} (room : String)
    (h : subInv st) : subInv (ensureSubscribed st room) := by
  intro c
  by_cases hc : redisRoomChannel room ∈ st.subscribedRooms
  · simp only [ensureSubscribed, if_pos hc]
    exact h c
  · by_cases hcc : c = redisRoomChannel room
    · subst hcc
      have hz := h (redisRoomChannel room)
      rw [if_neg hc] at hz
      simp [ensureSubscribed, rawSubscribe, hc, hz]
    · have hz := h c
      simp [ensureSubscribed, rawSubscribe, hc, hcc]
      exact hz

lemma subInv_ensureAll (rs : List String) :
    ∀ st : SubState, subInv st → subInv (ensureAll st rs) := by
  induction rs with
  | nil => intro st h; exact h
  | cons r rs ih =>
      intro st h
      exact ih _ (subInv_ensureSubscribed r h)

lemma ensureSubscribed_of_mem {st : SubState} {room : String}
    (h : redisRoomChannel room ∈ st.subscribedRooms) :
    ensureSubscribed st room = st := by
  simp [ensureSubscribed, h]

lemma mem_ensureSubscribed (st : SubState) (room : String) :
    redisRoomChannel room ∈ (ensureSubscribed st room).subscribedRooms := by
  by_cases hc : redisRoomChannel room ∈ st.subscribedRooms
  · rw [ensureSubscribed_of_mem hc]
    exact hc
  · simp [ensureSubscribed, rawSubscribe, hc]

/-- Everything the fan-out handler sends goes to a connection handle taken
from the `clients` map. -/
lemma mem_sent_cid {clients : List (Conn × Meta)} {msg : BusEvent}
    {q : Conn × BusEvent} (hq : q ∈ (onBusMessage clients msg).sent) :
    q.1.cid ∈ clients.map (fun p => p.1.cid) := by
  simp only [onBusMessage, List.mem_filterMap] at hq
  obtain ⟨p, hp, hcond⟩ := hq
  by_cases hc : p.2.room = msg.room ∧ p.1.readyState = WS_OPEN
  · rw [if_pos hc, Option.some_inj] at hcond
    subst hcond
    exact List.mem_map.mpr ⟨p, hp, rfl⟩
  · rw [if_neg hc] at hcond
    exact absurd hcond Option.noConfusion

/-- One firing of the fan-out handler reaches a given connection handle at
most once, provided the `clients` map has distinct handles (Map keys). -/
lemma sent_filter_cid_length (c : Conn) (msg : BusEvent) :
    ∀ clients : List (Conn × Meta),
      (clients.map (fun p => p.1.cid)).Nodup →
      ((onBusMessage clients msg).sent.filter
          (fun p => p.1.cid == c.cid)).length ≤ 1 := by
  intro clients
  induction clients with
  | nil =>
      intro _
      simp [onBusMessage]
  | cons p rest ih =>
      intro hnd
      rw [List.map_cons, List.nodup_cons] at hnd
      obtain ⟨hp1, hp2⟩ := hnd
      by_cases hc : p.2.room = msg.room ∧ p.1.readyState = WS_OPEN
      · have hsent : (onBusMessage (p :: rest) msg).sent =
            (p.1, msg) :: (onBusMessage rest msg).sent := by
          simp [onBusMessage, List.filterMap_cons, hc]
        rw [hsent]
        by_cases hcc : p.1.cid = c.cid
        · rw [List.filter_cons]
          have hrest : ((onBusMessage rest msg).sent.filter
              (fun q => q.1.cid == c.cid)) = [] := by
            rw [List.filter_eq_nil_iff]
            intro q hqmem hqc
            rw [beq_iff_eq] at hqc
            exact hp1 (by rw [hcc, ← hqc]; exact mem_sent_cid hqmem)
          simp [hcc, hrest]
        · have : ((p.1, msg).1.cid == c.cid) = false := by
            simp [hcc]
          rw [List.filter_cons, this]
          simp only [Bool.false_eq_true, if_false]
          exact ih hp2
      · have hsent : (onBusMessage (p :: rest) msg).sent =
            (onBusMessage rest msg).sent := by
          simp [onBusMessage, List.filterMap_cons, hc]
        rw [hsent]
        exact ih hp2

/-- C8: after any sequence of `ensureSubscribed` calls from process start,
a published bus event reaches each locally registered connection at most
once (the guard set keeps the broker subscription count of every channel at
most one), and `ensureSubscribed` is idempotent: an immediate second ensure
for the same room is a no-op. -/
theorem c8_subscribe_idempotent_no_duplicate_delivery (rooms : List String)
    (clients : List (Conn × Meta)) (c : Conn) (msg : BusEvent)
    (h : (clients.map (fun p => p.1.cid)).Nodup) :
    deliveriesTo (ensureAll initSub rooms) clients c msg ≤ 1 ∧
    ∀ (st : SubState) (room : String),
      ensureSubscribed (ensureSubscribed st room) room =
        ensureSubscribed st room := by
  constructor
  · have hinv := subInv_ensureAll rooms initSub subInv_initSub
    have h1 : (ensureAll initSub rooms).subCount
        (redisRoomChannel msg.room) ≤ 1 := by
      rw [hinv _]
      split <;> simp
    have h2 := sent_filter_cid_length c msg clients h
    calc deliveriesTo (ensureAll initSub rooms) clients c msg
        ≤ 1 * 1 := Nat.mul_le_mul h1 h2
      _ = 1 := by simp
  · intro st room
    exact ensureSubscribed_of_mem (mem_ensureSubscribed st room)

/-- C8, witness: joining room `dev` twice, a chat event on `dev` reaches
the one registered connection at most once. -/
theorem c8_witness :
    deliveriesTo (ensureAll initSub ["dev", "dev"])
        [(⟨1, WS_OPEN⟩, ⟨"s1", "dev", "bob"⟩)] ⟨1, WS_OPEN⟩
        (BusEvent.chat ⟨"m1", "text", "dev", "alice", "hi", 42⟩) ≤ 1 :=
  (c8_subscribe_idempotent_no_duplicate_delivery ["dev", "dev"]
      [(⟨1, WS_OPEN⟩, ⟨"s1", "dev", "bob"⟩)] ⟨1, WS_OPEN⟩
      (BusEvent.chat ⟨"m1", "text", "dev", "alice", "hi", 42⟩)
      (by decide)).1

/-- The per-room users keys are distinct for distinct rooms. -/
lemma redisRoomUsersKey_inj {r r' : String}
    (h : redisRoomUsersKey r = redisRoomUsersKey r') : r = r' := by
  unfold redisRoomUsersKey at h
  have hd := congrArg String.data h
  simp only [String.data_append] at hd
  exact String.ext (List.append_cancel_left (List.append_cancel_right hd))

/-- Membership in the set of identities with an open session in a room. -/
lemma mem_openIdents {clients : List (Nat × Meta)} {room u : String} :
    u ∈ openIdents clients room ↔
      ∃ p ∈ clients, p.2.room = room ∧ p.2.username = u := by
  simp only [openIdents, List.mem_toFinset, List.mem_map, List.mem_filter,
    beq_iff_eq]
  constructor
  · rintro ⟨p, ⟨hp, hroom⟩, huser⟩
    exact ⟨p, hp, hroom, huser⟩
  · rintro ⟨p, hp, hroom, huser⟩
    exact ⟨p, ⟨hp, hroom⟩, huser⟩

/-- Two registered entries with the same connection handle are the same
entry, when handles are distinct Map keys. -/
lemma eq_of_mem_nodup_fst {l : List (Nat × Meta)}
    (h : (l.map (fun p => p.1)).Nodup) {p q : Nat × Meta}
    (hp : p ∈ l) (hq : q ∈ l) (hfst : p.1 = q.1) : p = q :=
  List.inj_on_of_nodup_map h hp hq hfst

/-- Two registered entries with the same room and identity are the same
entry, under the single-session-per-identity invariant. -/
lemma pair_unique {l : List (Nat × Meta)}
    (h : l.Pairwise (fun p q =>
        ¬(p.2.room = q.2.room ∧ p.2.username = q.2.username)))
    {p q : Nat × Meta} (hp : p ∈ l) (hq : q ∈ l)
    (hroom : p.2.room = q.2.room) (huser : p.2.username = q.2.username) :
    p = q := by
  by_contra hne
  have hsym : Symmetric (fun p q : Nat × Meta =>
      ¬(p.2.room = q.2.room ∧ p.2.username = q.2.username)) := by
    intro a b hab hba
    exact hab ⟨hba.1.symm, hba.2.symm⟩
  exact (h.forall hsym hp hq hne) ⟨hroom, huser⟩

/-- Reachability invariant of single-session traces: distinct connection
handles, at most one session per (room, identity), and the users sets agree
with the open sessions. -/
def GwInv (s : GwState) : Prop :=
  ((s.clients.map (fun p => p.1)).Nodup) ∧
  (s.clients.Pairwise (fun p q =>
      ¬(p.2.room = q.2.room ∧ p.2.username = q.2.username))) ∧
  (∀ room u, u ∈ s.store (redisRoomUsersKey room) ↔
      ∃ p ∈ s.clients, p.2.room = room ∧ p.2.username = u)

lemma gwInv_init : GwInv initState := by
  refine ⟨List.nodup_nil, List.Pairwise.nil, ?_⟩
  intro room u
  simp [initState]

lemma gwInv_connect {s : GwState} (hinv : GwInv s) {c : Nat}
    {sid room username : String}
    (hwf : s.clients.all (fun p =>
        p.1 != c && !(p.2.room == room && p.2.username == username)) = true) :
    GwInv (gwStep s (GwOp.connect c sid room username)) := by
  obtain ⟨hnd, hpw, hmem⟩ := hinv
  have hwf' : ∀ p ∈ s.clients,
      p.1 ≠ c ∧ ¬(p.2.room = room ∧ p.2.username = username) := by
    intro p hp
    have h := List.all_eq_true.mp hwf p hp
    simp at h
    tauto
  refine ⟨?_, ?_, ?_⟩
  · simp only [gwStep]
    rw [List.map_cons, List.nodup_cons]
    refine ⟨?_, hnd⟩
    intro hmemc
    obtain ⟨p, hp, hpc⟩ := List.mem_map.mp hmemc
    exact (hwf' p hp).1 hpc
  · simp only [gwStep]
    rw [List.pairwise_cons]
    refine ⟨?_, hpw⟩
    rintro q hq ⟨h1, h2⟩
    exact (hwf' q hq).2 ⟨h1.symm, h2.symm⟩
  · intro room' u
    show u ∈ (addUserToRoom s.store room username).1
        (redisRoomUsersKey room') ↔ _
    by_cases hr : room' = room
    · subst hr
      simp only [addUserToRoom, sadd, if_true, Finset.mem_insert]
      constructor
      · rintro (h | h)
        · exact ⟨(c, ⟨sid, room', username⟩), List.mem_cons_self _ _, rfl,
            h.symm⟩
        · obtain ⟨p, hp, h1, h2⟩ := (hmem room' u).mp h
          exact ⟨p, List.mem_cons_of_mem _ hp, h1, h2⟩
      · rintro ⟨p, hp, h1, h2⟩
        rcases List.mem_cons.mp hp with hphead | hptail
        · subst hphead
          exact Or.inl h2.symm
        · exact Or.inr ((hmem room' u).mpr ⟨p, hptail, h1, h2⟩)
    · have hkey : redisRoomUsersKey room' ≠ redisRoomUsersKey room :=
        fun hk => hr (redisRoomUsersKey_inj hk)
      simp only [addUserToRoom, sadd]
      rw [if_neg hkey, hmem room' u]
      constructor
      · rintro ⟨p, hp, h1, h2⟩
        exact ⟨p, List.mem_cons_of_mem _ hp, h1, h2⟩
      · rintro ⟨p, hp, h1, h2⟩
        rcases List.mem_cons.mp hp with hphead | hptail
        · subst hphead
          exact absurd h1.symm hr
        · exact ⟨p, hptail, h1, h2⟩

lemma gwInv_close {s : GwState} (hinv : GwInv s) (c : Nat) :
    GwInv (gwStep s (GwOp.close c)) := by
  obtain ⟨hnd, hpw, hmem⟩ := hinv
  cases hfind : s.clients.find? (fun p => p.1 == c) with
  | none =>
      simp only [gwStep, hfind]
      exact ⟨hnd, hpw, hmem⟩
  | some q =>
      have hq_mem : q ∈ s.clients := List.mem_of_find?_eq_some hfind
      have hq_c : q.1 = c := by
        have h := List.find?_some hfind
        rwa [beq_iff_eq] at h
      have hsub : (s.clients.filter (fun p => p.1 != c)).Sublist s.clients :=
        List.filter_sublist _
      simp only [gwStep, hfind]
      refine ⟨?_, ?_, ?_⟩
      · exact List.Nodup.sublist (hsub.map (fun p => p.1)) hnd
      · exact hpw.sublist hsub
      · intro room' u
        show u ∈ (removeUserFromRoom s.store q.2.room q.2.username).1
            (redisRoomUsersKey room') ↔ _
        by_cases hr : room' = q.2.room
        · subst hr
          simp only [removeUserFromRoom, srem, if_true, Finset.mem_erase]
          constructor
          · rintro ⟨hne, hu⟩
            obtain ⟨p, hp, h1, h2⟩ := (hmem _ u).mp hu
            refine ⟨p, ?_, h1, h2⟩
            rw [List.mem_filter]
            refine ⟨hp, ?_⟩
            rw [bne_iff_ne]
            intro hpc
            have hpq : p = q := eq_of_mem_nodup_fst hnd hp hq_mem
              (by rw [hpc, hq_c])
            exact hne (by rw [← h2, hpq])
          · rintro ⟨p, hp, h1, h2⟩
            rw [List.mem_filter] at hp
            obtain ⟨hpmem, hpne⟩ := hp
            rw [bne_iff_ne] at hpne
            refine ⟨?_, (hmem _ u).mpr ⟨p, hpmem, h1, h2⟩⟩
            intro hu
            have hpq : p = q := pair_unique hpw hpmem hq_mem h1
              (by rw [h2, hu])
            exact hpne (by rw [hpq, hq_c])
        · have hkey : redisRoomUsersKey room' ≠
              redisRoomUsersKey q.2.room :=
            fun hk => hr (redisRoomUsersKey_inj hk)
          simp only [removeUserFromRoom, srem]
          rw [if_neg hkey, hmem room' u]
          constructor
          · rintro ⟨p, hp, h1, h2⟩
            refine ⟨p, ?_, h1, h2⟩
            rw [List.mem_filter]
            refine ⟨hp, ?_⟩
            rw [bne_iff_ne]
            intro hpc
            have hpq : p = q := eq_of_mem_nodup_fst hnd hp hq_mem
              (by rw [hpc, hq_c])
            exact hr (by rw [← h1, hpq])
          · rintro ⟨p, hp, h1, h2⟩
            rw [List.mem_filter] at hp
            exact ⟨p, hp.1, h1, h2⟩

lemma gwInv_run : ∀ (ops : List GwOp) (s : GwState), GwInv s →
    wfOps s ops = true → GwInv (gwRun s ops) := by
  intro ops
  induction ops with
  | nil =>
      intro s h _
      exact h
  | cons op rest ih =>
      intro s hinv hwf
      cases op with
      | connect c sid room username =>
          simp only [wfOps, Bool.and_eq_true] at hwf
          obtain ⟨hop, hrest⟩ := hwf
          exact ih _ (gwInv_connect hinv hop) hrest
      | close c =>
          simp only [wfOps, Bool.true_and] at hwf
          exact ih _ (gwInv_close hinv c) hwf

/-- C3, counterexample: `alice` opens two concurrent sessions in room
`dev`, then one of them closes; the close handler's unconditional `srem`
empties the membership set even though `alice` still has an open session,
so the set no longer equals the identities with an open session. -/
theorem c3_counterexample :
    (gwRun initState [GwOp.connect 1 "s1" "dev" "alice",
        GwOp.connect 2 "s2" "dev" "alice", GwOp.close 1]).store
        (redisRoomUsersKey "dev") ≠
      openIdents (gwRun initState [GwOp.connect 1 "s1" "dev" "alice",
          GwOp.connect 2 "s2" "dev" "alice", GwOp.close 1]).clients "dev" := by
  decide

/-- C3, amended: when no identity ever holds two concurrent sessions in the
same room (and each connection handle is fresh), the membership set of
every room equals exactly the set of identities with at least one open
session in that room; with concurrent duplicate sessions, the first close
already removes the identity. -/
theorem c3_presence_matches_open_sessions (ops : List GwOp)
    (h : wfOps initState ops = true) (room : String) :
    (gwRun initState ops).store (redisRoomUsersKey room) =
      openIdents (gwRun initState ops).clients room := by
  have hinv := gwInv_run ops initState gwInv_init h
  apply Finset.ext
  intro u
  rw [hinv.2.2 room u, mem_openIdents]

/-- C3, witness: a single-session trace — `alice` joins `dev` and leaves —
satisfies the side condition and ends with the membership set matching the
open sessions. -/
theorem c3_witness :
    wfOps initState [GwOp.connect 1 "s1" "dev" "alice", GwOp.close 1] =
        true ∧
    (gwRun initState [GwOp.connect 1 "s1" "dev" "alice",
        GwOp.close 1]).store (redisRoomUsersKey "dev") =
      openIdents (gwRun initState [GwOp.connect 1 "s1" "dev" "alice",
          GwOp.close 1]).clients "dev" :=
  ⟨by decide, c3_presence_matches_open_sessions _ (by decide) "dev"⟩

end ChatApp
